import Mathlib

/-!
Verification of the dfshm shared-memory transport.

This development shallowly embeds the C sources of the repository
(`df_shm_queue.c`, `df_shm.c`, `df_shm_sysv.c`, `df_shm_mmap.c`) into Lean:
pure size computations become Lean functions over `Nat`, the in-region queue
becomes an explicit state record with slot memory modelled as a function from
slot indices to slot contents, the region manager's bookkeeping lists become
lists of handle identifiers, and backend/OS calls that can fail are
parameterised by explicit success flags or abstract result functions.
-/

namespace DfShm

/-! ## Queue memory layout (df_shm_queue.h, LP64 / x86-64 ABI)

`struct _df_queue_slot { enum SLOT_FLAG status; size_t size; char data[0]; }`:
the enum occupies 4 bytes, is followed by 4 bytes of alignment padding
(size_t is 8-byte aligned), and `size` occupies 8 bytes; the flexible array
member contributes no size.  Hence `sizeof(df_queue_slot) = 16`.

`struct _df_queue` lays out `int32_t initialized` (offset 0),
`uint32_t max_num_slots` (offset 4), `size_t max_payload_size` (offset 8),
`size_t slot_size` (offset 16), `size_t total_size` (offset 24) and then the
explicit padding array whose length the source computes as
`CACHE_LINE_SIZE - sizeof(int32_t) - sizeof(uint32_t) - 2*sizeof(size_t)`.
The flexible member `char slots[0]` starts right after the padding array.
-/

def CACHE_LINE_SIZE : Nat := 64

def sizeof_int32_t : Nat := 4

def sizeof_uint32_t : Nat := 4

def sizeof_size_t : Nat := 8

def sizeof_df_queue_slot : Nat := 16

/-- Length of the `padding` member of `struct _df_queue`, transcribed from
`char padding[CACHE_LINE_SIZE - sizeof(int32_t) - sizeof(uint32_t) - 2*sizeof(size_t)]`. -/
def df_queue_padding_len : Nat :=
  CACHE_LINE_SIZE - sizeof_int32_t - sizeof_uint32_t - 2 * sizeof_size_t

/-- `sizeof(struct _df_queue)`: the five scalar fields (4+4+8+8+8 = 32 bytes,
with no interior padding because offsets 0,4,8,16,24 are all aligned) followed
by the `padding` array; the flexible `slots[0]` member adds nothing.  The
struct's alignment is 8 and 32 + padding is already 8-aligned. -/
def sizeof_df_queue : Nat :=
  sizeof_int32_t + sizeof_uint32_t + 3 * sizeof_size_t + df_queue_padding_len

/-! ## Size computations (df_shm_queue.c) -/

/-- `df_calculate_slot_size` from df_shm_queue.c: slot overhead plus payload,
rounded up to the next multiple of `CACHE_LINE_SIZE`. -/
def df_calculate_slot_size (max_payload_size : Nat) : Nat :=
  let slot_size := sizeof_df_queue_slot + max_payload_size
  if slot_size % CACHE_LINE_SIZE ≠ 0 then
    slot_size + (CACHE_LINE_SIZE - slot_size % CACHE_LINE_SIZE)
  else
    slot_size

/-- `df_calculate_queue_size` from df_shm_queue.c. -/
def df_calculate_queue_size (max_num_slots max_payload_size : Nat) : Nat :=
  sizeof_df_queue + max_num_slots * df_calculate_slot_size max_payload_size

/-- Rounding up to the next multiple of `m`, as the specification phrases it.
Used only to compare `df_calculate_slot_size` against the spec's wording. -/
def roundUpTo (x m : Nat) : Nat := ((x + m - 1) / m) * m

theorem df_calculate_slot_size_eq_roundUpTo (p : Nat) :
    df_calculate_slot_size p = roundUpTo (sizeof_df_queue_slot + p) CACHE_LINE_SIZE := by
  unfold df_calculate_slot_size roundUpTo CACHE_LINE_SIZE sizeof_df_queue_slot
  simp only []
  split <;> omega

/-! ## Queue state model (df_shm_queue.h / df_shm_queue.c)

Slot memory is modelled as a function from slot index to slot contents; a
slot's payload area is a byte list of which enqueue overwrites a prefix.
All queue operations are given in state-passing style: the C functions
mutate the shared region through the endpoint's cached slot pointers, which
here becomes returning the updated `DfQueue` (and endpoint) value.  A
blocking operation whose spin loop can never be exited by the sequential
caller itself is modelled as returning `none`. -/

inductive SLOT_FLAG where
  | SLOT_FULL
  | SLOT_EMPTY
deriving DecidableEq, Repr

structure DfQueueSlot where
  status : SLOT_FLAG
  size : Nat
  data : List Nat
deriving DecidableEq, Repr

structure DfQueue where
  initialized : Nat
  max_num_slots : Nat
  max_payload_size : Nat
  slot_size : Nat
  total_size : Nat
  slots : Nat → DfQueueSlot

structure DfQueueEp where
  slot_index : Nat
  is_sender : Bool
deriving DecidableEq, Repr

/-- `df_create_queue` from df_shm_queue.c.  `mem` is the pre-existing contents
of the slot area of the region (the C code only writes each slot's `status`
and `size` fields; the payload bytes keep whatever was in the memory). -/
def df_create_queue (mem : Nat → DfQueueSlot) (max_num_slots max_payload_size : Nat) :
    DfQueue :=
  { initialized := 1
    max_num_slots := max_num_slots
    max_payload_size := max_payload_size
    slot_size := df_calculate_slot_size max_payload_size
    total_size := df_calculate_queue_size max_num_slots max_payload_size
    slots := fun i =>
      if i < max_num_slots then
        { status := SLOT_FLAG.SLOT_EMPTY, size := 0, data := (mem i).data }
      else mem i }

/-- `df_internal_get_queue_ep` from df_shm_queue.c.  The two `malloc` calls
can fail; their success is the two Boolean parameters.  The function performs
only loads on the queue, so the queue value is returned unchanged alongside
the optional endpoint. -/
def df_internal_get_queue_ep (queue : DfQueue) (is_sender : Bool)
    (malloc_ep_ok malloc_slots_ok : Bool) : Option DfQueueEp × DfQueue :=
  if queue.initialized = 0 then (none, queue)
  else if ¬ malloc_ep_ok then (none, queue)
  else if ¬ malloc_slots_ok then (none, queue)
  else (some { slot_index := 0, is_sender := is_sender }, queue)

/-- `df_get_queue_sender_ep` from df_shm_queue.c. -/
def df_get_queue_sender_ep (queue : DfQueue) (malloc_ep_ok malloc_slots_ok : Bool) :
    Option DfQueueEp × DfQueue :=
  df_internal_get_queue_ep queue true malloc_ep_ok malloc_slots_ok

/-- `df_get_queue_receiver_ep` from df_shm_queue.c. -/
def df_get_queue_receiver_ep (queue : DfQueue) (malloc_ep_ok malloc_slots_ok : Bool) :
    Option DfQueueEp × DfQueue :=
  df_internal_get_queue_ep queue false malloc_ep_ok malloc_slots_ok

/-- Total payload length of an iovec array: the sum of all `iov_len` fields,
as accumulated by the first loop of `df_enqueue_vector`. -/
def sum_iov (vec : List (List Nat)) : Nat := (vec.map List.length).sum

/-- Effect of the copy loop plus the `size` and `status` stores of an enqueue
on the target slot: the payload is copied over the front of the data area
(bytes past the payload keep their old values), the size field is set, and
the status is published as FULL. -/
def slot_fill (s : DfQueueSlot) (payload : List Nat) : DfQueueSlot :=
  { status := SLOT_FLAG.SLOT_FULL
    size := payload.length
    data := payload ++ s.data.drop payload.length }

/-- `df_enqueue_vector` from df_shm_queue.c (blocking).  If the payload fits,
the code spins until the current slot is EMPTY; with no concurrent consumer
step the spin never terminates, which the model renders as `none`.  The
oversize branch returns −1 before any slot access. -/
def df_enqueue_vector (queue : DfQueue) (ep : DfQueueEp) (vec : List (List Nat)) :
    Option (Int × DfQueue × DfQueueEp) :=
  let size := sum_iov vec
  if size ≤ queue.max_payload_size then
    let current_slot := queue.slots ep.slot_index
    if current_slot.status ≠ SLOT_FLAG.SLOT_EMPTY then
      none
    else
      some (0,
        { queue with
            slots := Function.update queue.slots ep.slot_index
              (slot_fill current_slot (vec.flatten)) },
        { ep with slot_index := (ep.slot_index + 1) % queue.max_num_slots })
  else
    some (-1, queue, ep)

/-- `df_enqueue` from df_shm_queue.c: wraps the single buffer in an iovec of
length one. -/
def df_enqueue (queue : DfQueue) (ep : DfQueueEp) (data : List Nat) :
    Option (Int × DfQueue × DfQueueEp) :=
  df_enqueue_vector queue ep [data]

/-- `df_try_enqueue_vector` from df_shm_queue.c (non-blocking). -/
def df_try_enqueue_vector (queue : DfQueue) (ep : DfQueueEp) (vec : List (List Nat)) :
    Int × DfQueue × DfQueueEp :=
  let size := sum_iov vec
  if size ≤ queue.max_payload_size then
    let current_slot := queue.slots ep.slot_index
    if current_slot.status ≠ SLOT_FLAG.SLOT_EMPTY then
      (-1, queue, ep)
    else
      (0,
        { queue with
            slots := Function.update queue.slots ep.slot_index
              (slot_fill current_slot (vec.flatten)) },
        { ep with slot_index := (ep.slot_index + 1) % queue.max_num_slots })
  else
    (1, queue, ep)

/-- `df_try_enqueue` from df_shm_queue.c. -/
def df_try_enqueue (queue : DfQueue) (ep : DfQueueEp) (data : List Nat) :
    Int × DfQueue × DfQueueEp :=
  df_try_enqueue_vector queue ep [data]

/-- `df_dequeue` from df_shm_queue.c (blocking): spins until the current slot
is FULL (modelled as `none`), then hands the caller the payload bytes and the
slot's size field.  The queue and the consumer cursor are not modified. -/
def df_dequeue (queue : DfQueue) (ep : DfQueueEp) : Option (List Nat × Nat) :=
  let current_slot := queue.slots ep.slot_index
  if current_slot.status ≠ SLOT_FLAG.SLOT_FULL then
    none
  else
    some (current_slot.data.take current_slot.size, current_slot.size)

/-- `df_release` from df_shm_queue.c: zero the size field, publish the slot
as EMPTY and advance the consumer cursor. -/
def df_release (queue : DfQueue) (ep : DfQueueEp) : DfQueue × DfQueueEp :=
  let current_slot := queue.slots ep.slot_index
  ({ queue with
      slots := Function.update queue.slots ep.slot_index
        { current_slot with size := 0, status := SLOT_FLAG.SLOT_EMPTY } },
   { ep with slot_index := (ep.slot_index + 1) % queue.max_num_slots })

/-- `df_try_dequeue` from df_shm_queue.c (non-blocking). -/
def df_try_dequeue (queue : DfQueue) (ep : DfQueueEp) :
    Int × Option (List Nat × Nat) :=
  let current_slot := queue.slots ep.slot_index
  if current_slot.status ≠ SLOT_FLAG.SLOT_FULL then
    (-1, none)
  else
    (0, some (current_slot.data.take current_slot.size, current_slot.size))

/-! ## Claims C2 and C5: layout and size computation -/

/-- Claim C2 (code bug exhibited): the queue header struct is NOT padded to a
multiple of `CACHE_LINE_SIZE`.  The padding formula in df_shm_queue.h
subtracts `2*sizeof(size_t)` although the struct holds three `size_t` fields,
so `sizeof(struct _df_queue) = 72` and the first slot, which begins at offset
`sizeof(df_queue)` from the queue base, does not start on a fresh cacheline. -/
theorem C2_header_size_not_cacheline_multiple :
    sizeof_df_queue = 72 ∧ sizeof_df_queue % CACHE_LINE_SIZE ≠ 0 := by
  constructor <;> decide

/-- Claim C5: `df_calculate_queue_size n p` equals the header size plus
`n` times the slot size, the slot size is the slot overhead
(`sizeof(df_queue_slot)`, i.e. the status word plus the size field with their
alignment padding) plus `p` rounded up to the next multiple of
`CACHE_LINE_SIZE`, and `df_create_queue` stores exactly these two quantities
in the header's `slot_size` and `total_size` fields. -/
theorem C5_queue_size_computation (n p : Nat) (mem : Nat → DfQueueSlot)
    (hn : 0 < n) (hp : 0 < p) :
    df_calculate_queue_size n p = sizeof_df_queue + n * df_calculate_slot_size p ∧
    df_calculate_slot_size p = roundUpTo (sizeof_df_queue_slot + p) CACHE_LINE_SIZE ∧
    (df_create_queue mem n p).slot_size = df_calculate_slot_size p ∧
    (df_create_queue mem n p).total_size = df_calculate_queue_size n p := by
  refine ⟨rfl, df_calculate_slot_size_eq_roundUpTo p, rfl, rfl⟩

/-- Witness for C5 at `n = 2`, `p = 100`. -/
theorem C5_queue_size_computation_witness :
    df_calculate_queue_size 2 100 = sizeof_df_queue + 2 * df_calculate_slot_size 100 ∧
    df_calculate_slot_size 100 = roundUpTo (sizeof_df_queue_slot + 100) CACHE_LINE_SIZE ∧
    (df_create_queue (fun _ => ⟨SLOT_FLAG.SLOT_EMPTY, 0, []⟩) 2 100).slot_size =
      df_calculate_slot_size 100 ∧
    (df_create_queue (fun _ => ⟨SLOT_FLAG.SLOT_EMPTY, 0, []⟩) 2 100).total_size =
      df_calculate_queue_size 2 100 :=
  C5_queue_size_computation 2 100 (fun _ => ⟨SLOT_FLAG.SLOT_EMPTY, 0, []⟩)
    (by decide) (by decide)

/-! ## Claim C3: oversize payloads are rejected before any slot access -/

/-- Claim C3: a payload whose total length exceeds `max_payload_size` makes
both enqueue variants fail with their capacity-exceeded return (−1 for the
blocking `df_enqueue`/`df_enqueue_vector`, whose only error return is this
one, and +1 for `df_try_enqueue`/`df_try_enqueue_vector`); the queue (every
slot's status, size and payload bytes) and the producer cursor are returned
unchanged, and the blocking variant returns (`some`) rather than spinning,
because the size check precedes any slot access. -/
theorem C3_oversize_rejected_without_slot_access
    (queue : DfQueue) (ep : DfQueueEp) (vec : List (List Nat)) (data : List Nat)
    (hvec : queue.max_payload_size < sum_iov vec)
    (hdata : queue.max_payload_size < data.length) :
    df_enqueue_vector queue ep vec = some (-1, queue, ep) ∧
    df_try_enqueue_vector queue ep vec = (1, queue, ep) ∧
    df_enqueue queue ep data = some (-1, queue, ep) ∧
    df_try_enqueue queue ep data = (1, queue, ep) := by
  have h1 : ¬ sum_iov vec ≤ queue.max_payload_size := by omega
  have h2 : ¬ sum_iov [data] ≤ queue.max_payload_size := by
    simp [sum_iov]; omega
  refine ⟨?_, ?_, ?_, ?_⟩ <;>
    simp [df_enqueue_vector, df_try_enqueue_vector, df_enqueue, df_try_enqueue, h1, h2]

/-- Witness for C3: a queue with `max_payload_size = 4` and 5-byte payloads. -/
theorem C3_oversize_rejected_without_slot_access_witness :
    df_enqueue_vector
        (df_create_queue (fun _ => ⟨SLOT_FLAG.SLOT_EMPTY, 0, []⟩) 2 4) ⟨0, true⟩
        [[1, 2, 3], [4, 5]] =
      some (-1, df_create_queue (fun _ => ⟨SLOT_FLAG.SLOT_EMPTY, 0, []⟩) 2 4,
        (⟨0, true⟩ : DfQueueEp)) ∧
    df_try_enqueue_vector
        (df_create_queue (fun _ => ⟨SLOT_FLAG.SLOT_EMPTY, 0, []⟩) 2 4) ⟨0, true⟩
        [[1, 2, 3], [4, 5]] =
      (1, df_create_queue (fun _ => ⟨SLOT_FLAG.SLOT_EMPTY, 0, []⟩) 2 4,
        (⟨0, true⟩ : DfQueueEp)) ∧
    df_enqueue
        (df_create_queue (fun _ => ⟨SLOT_FLAG.SLOT_EMPTY, 0, []⟩) 2 4) ⟨0, true⟩
        [9, 9, 9, 9, 9] =
      some (-1, df_create_queue (fun _ => ⟨SLOT_FLAG.SLOT_EMPTY, 0, []⟩) 2 4,
        (⟨0, true⟩ : DfQueueEp)) ∧
    df_try_enqueue
        (df_create_queue (fun _ => ⟨SLOT_FLAG.SLOT_EMPTY, 0, []⟩) 2 4) ⟨0, true⟩
        [9, 9, 9, 9, 9] =
      (1, df_create_queue (fun _ => ⟨SLOT_FLAG.SLOT_EMPTY, 0, []⟩) 2 4,
        (⟨0, true⟩ : DfQueueEp)) :=
  C3_oversize_rejected_without_slot_access _ _ _ _ (by decide) (by decide)

/-! ## Claim C4: return codes of the try variants -/

/-- A producer-side state whose current slot is FULL, with
`max_payload_size = 4`, used to refute claim C4 as stated. -/
def c4_queue : DfQueue :=
  { initialized := 1
    max_num_slots := 1
    max_payload_size := 4
    slot_size := df_calculate_slot_size 4
    total_size := df_calculate_queue_size 1 4
    slots := fun _ => { status := SLOT_FLAG.SLOT_FULL, size := 0, data := [] } }

def c4_ep : DfQueueEp := { slot_index := 0, is_sender := true }

/-- Claim C4 counterexample: with the current producer slot FULL and a 5-byte
payload against `max_payload_size = 4`, `df_try_enqueue` returns +1, not −1 —
the size check precedes the slot-status check, so "returns −1 iff the current
slot is FULL" fails in the oversize case. -/
theorem C4_counterexample :
    (c4_queue.slots c4_ep.slot_index).status = SLOT_FLAG.SLOT_FULL ∧
    (df_try_enqueue c4_queue c4_ep [9, 9, 9, 9, 9]).1 = 1 ∧
    (df_try_enqueue c4_queue c4_ep [9, 9, 9, 9, 9]).1 ≠ -1 := by
  refine ⟨rfl, rfl, by decide⟩

/-- Claim C4 as amended: `df_try_enqueue` returns +1 whenever the payload
exceeds `max_payload_size` (regardless of slot status); for a fitting payload
it returns −1 iff the slot at the producer's cursor is FULL and 0 (success)
otherwise; `df_try_dequeue` returns −1 iff the slot at the consumer's cursor
is EMPTY and 0 on success. -/
theorem C4_try_return_codes (queue : DfQueue) (ep : DfQueueEp) (data : List Nat) :
    (queue.max_payload_size < data.length →
      (df_try_enqueue queue ep data).1 = 1) ∧
    (data.length ≤ queue.max_payload_size →
      (((df_try_enqueue queue ep data).1 = -1 ↔
          (queue.slots ep.slot_index).status = SLOT_FLAG.SLOT_FULL) ∧
        ((df_try_enqueue queue ep data).1 = 0 ↔
          (queue.slots ep.slot_index).status = SLOT_FLAG.SLOT_EMPTY))) ∧
    ((df_try_dequeue queue ep).1 = -1 ↔
      (queue.slots ep.slot_index).status = SLOT_FLAG.SLOT_EMPTY) ∧
    ((df_try_dequeue queue ep).1 = 0 ↔
      (queue.slots ep.slot_index).status = SLOT_FLAG.SLOT_FULL) := by
  have hsum : sum_iov [data] = data.length := by simp [sum_iov]
  refine ⟨?_, ?_, ?_, ?_⟩
  · intro h
    have : ¬ sum_iov [data] ≤ queue.max_payload_size := by omega
    simp [df_try_enqueue, df_try_enqueue_vector, this]
  · intro h
    have hle : sum_iov [data] ≤ queue.max_payload_size := by omega
    cases hs : (queue.slots ep.slot_index).status <;>
      simp [df_try_enqueue, df_try_enqueue_vector, hle, hs]
  · cases hs : (queue.slots ep.slot_index).status <;>
      simp [df_try_dequeue, hs]
  · cases hs : (queue.slots ep.slot_index).status <;>
      simp [df_try_dequeue, hs]

/-- Witness for C4 (amended): on the FULL-slot queue, the oversize payload
yields +1, a fitting payload yields −1, and the consumer-side try-dequeue
yields 0. -/
theorem C4_try_return_codes_witness :
    (df_try_enqueue c4_queue c4_ep [9, 9, 9, 9, 9]).1 = 1 ∧
    (df_try_enqueue c4_queue c4_ep [7]).1 = -1 ∧
    (df_try_dequeue c4_queue ⟨0, false⟩).1 = 0 :=
  ⟨(C4_try_return_codes c4_queue c4_ep [9, 9, 9, 9, 9]).1 (by decide),
   (((C4_try_return_codes c4_queue c4_ep [7]).2.1 (by decide)).1).mpr rfl,
   ((C4_try_return_codes c4_queue (⟨0, false⟩ : DfQueueEp) []).2.2.2).mpr rfl⟩

/-! ## Claim C10: endpoint construction on an uninitialized queue -/

/-- Claim C10: when the queue's `initialized` flag is 0, both endpoint
constructors return NULL (`none`) and pass the queue through unchanged (the
function performs no store to the region); an endpoint is returned only when
the flag is nonzero and both allocations succeed, and it starts with
`slot_index = 0`. -/
theorem C10_endpoint_requires_initialized
    (queue : DfQueue) (m1 m2 : Bool) :
    (df_get_queue_sender_ep queue m1 m2).2 = queue ∧
    (df_get_queue_receiver_ep queue m1 m2).2 = queue ∧
    (queue.initialized = 0 →
      (df_get_queue_sender_ep queue m1 m2).1 = none ∧
      (df_get_queue_receiver_ep queue m1 m2).1 = none) ∧
    (∀ ep, (df_get_queue_sender_ep queue m1 m2).1 = some ep →
      queue.initialized ≠ 0 ∧ m1 = true ∧ m2 = true ∧
      ep.slot_index = 0 ∧ ep.is_sender = true) ∧
    (∀ ep, (df_get_queue_receiver_ep queue m1 m2).1 = some ep →
      queue.initialized ≠ 0 ∧ m1 = true ∧ m2 = true ∧
      ep.slot_index = 0 ∧ ep.is_sender = false) := by
  unfold df_get_queue_sender_ep df_get_queue_receiver_ep df_internal_get_queue_ep
  by_cases h0 : queue.initialized = 0 <;> cases m1 <;> cases m2 <;>
    simp [h0] <;> intro ep hep <;> simp [← hep]

/-- An uninitialized queue (flag 0, as left by `df_destroy_queue`). -/
def c10_queue : DfQueue :=
  { initialized := 0
    max_num_slots := 2
    max_payload_size := 4
    slot_size := df_calculate_slot_size 4
    total_size := df_calculate_queue_size 2 4
    slots := fun _ => { status := SLOT_FLAG.SLOT_EMPTY, size := 0, data := [] } }

/-- Witness for C10: on a queue with `initialized = 0` and succeeding
allocations, both constructors return `none` and the queue is unchanged; on
the initialized queue `c4_queue` the sender constructor yields the endpoint
with `slot_index = 0`. -/
theorem C10_endpoint_requires_initialized_witness :
    (df_get_queue_sender_ep c10_queue true true).1 = none ∧
    (df_get_queue_receiver_ep c10_queue true true).1 = none ∧
    (df_get_queue_sender_ep c10_queue true true).2 = c10_queue ∧
    ((df_get_queue_sender_ep c4_queue true true).1 = some ⟨0, true⟩ ∧
      c4_queue.initialized ≠ 0) :=
  ⟨((C10_endpoint_requires_initialized c10_queue true true).2.2.1 rfl).1,
   ((C10_endpoint_requires_initialized c10_queue true true).2.2.1 rfl).2,
   (C10_endpoint_requires_initialized c10_queue true true).1,
   rfl, by decide⟩

/-! ## Claim C1: FIFO delivery

A run interleaves blocking enqueues (`df_enqueue_vector`) by the producer
endpoint with dequeue/release pairs (`df_dequeue` then `df_release`) by the
consumer endpoint on one queue.  The schedule is a list of operations; the
`i`-th enqueue sends payload `xs.getD i []`.  A blocking operation whose spin
could not terminate makes the whole run `none`. -/

inductive QOp where
  | enq
  | deqrel
deriving DecidableEq, Repr

structure QState where
  q : DfQueue
  prod : DfQueueEp
  cons : DfQueueEp

/-- Initial combined state: a queue freshly created over memory `mem` and the
two endpoints, both starting at `slot_index = 0`. -/
def initQState (mem : Nat → DfQueueSlot) (n p : Nat) : QState :=
  { q := df_create_queue mem n p
    prod := { slot_index := 0, is_sender := true }
    cons := { slot_index := 0, is_sender := false } }

/-- Run a schedule.  `e` and `r` count the enqueues and the dequeue/release
pairs already performed; the result collects, in order, the (bytes, length)
pair each `df_dequeue` handed to the caller. -/
def runFrom (xs : List (List Nat)) : List QOp → QState → Nat → Nat →
    Option (List (List Nat × Nat))
  | [], _, _, _ => some []
  | QOp.enq :: rest, s, e, r =>
    match df_enqueue_vector s.q s.prod [xs.getD e []] with
    | none => none
    | some (_, q', prod') => runFrom xs rest ⟨q', prod', s.cons⟩ (e + 1) r
  | QOp.deqrel :: rest, s, e, r =>
    match df_dequeue s.q s.cons with
    | none => none
    | some out =>
      let qc := df_release s.q s.cons
      match runFrom xs rest ⟨qc.1, s.prod, qc.2⟩ e (r + 1) with
      | none => none
      | some outs => some (out :: outs)

/-- A schedule is feasible from counts `(e, r)` when every enqueue finds a
free slot (`e - r < n`) and every dequeue has a matching earlier enqueue
(`r < e`), so no blocking operation spins. -/
def schedOk (n : Nat) : List QOp → Nat → Nat → Bool
  | [], _, _ => true
  | QOp.enq :: rest, e, r => decide (e - r < n) && schedOk n rest (e + 1) r
  | QOp.deqrel :: rest, e, r => decide (r < e) && schedOk n rest e (r + 1)

/-- Number of dequeue/release pairs in a schedule. -/
def cntDeq : List QOp → Nat
  | [] => 0
  | QOp.enq :: rest => cntDeq rest
  | QOp.deqrel :: rest => 1 + cntDeq rest

/-- The sequence of (bytes, length) results claim C1 predicts for a schedule:
the `j`-th dequeue (counting from `r` pairs already released) yields payload
`xs.getD (r+j) []` with its exact length. -/
def expectedOut (xs : List (List Nat)) : List QOp → Nat → List (List Nat × Nat)
  | [], _ => []
  | QOp.enq :: rest, r => expectedOut xs rest r
  | QOp.deqrel :: rest, r =>
    (xs.getD r [], (xs.getD r []).length) :: expectedOut xs rest (r + 1)

/-- Invariant tying a combined state to the counts `(e, r)`: the producer and
consumer cursors sit at `e % n` and `r % n`; the slots holding the messages
enqueued but not yet released (indices `r ≤ i < e`, at most `n` of them) are
FULL and carry payload `xs.getD i []`; every other slot is EMPTY. -/
def QInv (xs : List (List Nat)) (n p e r : Nat) (s : QState) : Prop :=
  0 < n ∧
  s.q.max_num_slots = n ∧
  s.q.max_payload_size = p ∧
  s.prod.slot_index = e % n ∧
  s.cons.slot_index = r % n ∧
  r ≤ e ∧ e ≤ r + n ∧
  (∀ i, r ≤ i → i < e →
    (s.q.slots (i % n)).status = SLOT_FLAG.SLOT_FULL ∧
    (s.q.slots (i % n)).size = (xs.getD i []).length ∧
    (s.q.slots (i % n)).data.take (xs.getD i []).length = xs.getD i []) ∧
  (∀ j, j < n → (∀ i, r ≤ i → i < e → i % n ≠ j) →
    (s.q.slots j).status = SLOT_FLAG.SLOT_EMPTY)

/-- Two in-flight indices `i < e` with `e - i < n` cannot alias slot `e % n`. -/
theorem mod_ne_of_lt_of_sub_lt {n i e : Nat} (hie : i < e) (hsub : e - i < n) :
    i % n ≠ e % n := by
  intro h
  have hmod : i ≡ e [MOD n] := h
  have hdvd : n ∣ e - i := (Nat.modEq_iff_dvd' (Nat.le_of_lt hie)).mp hmod
  have hpos : 0 < e - i := by omega
  have := Nat.le_of_dvd hpos hdvd
  omega

/-- Cursor advance: `(e % n + 1) % n = (e + 1) % n`. -/
theorem mod_succ_mod (e n : Nat) : (e % n + 1) % n = (e + 1) % n :=
  (Nat.mod_modEq e n).add_right 1

theorem getD_length_le {xs : List (List Nat)} {p : Nat}
    (hxs : ∀ x ∈ xs, x.length ≤ p) (i : Nat) : (xs.getD i []).length ≤ p := by
  by_cases h : i < xs.length
  · have hmem : xs.getD i [] ∈ xs := by
      rw [List.getD_eq_getElem xs [] h]
      exact List.getElem_mem h
    exact hxs _ hmem
  · rw [List.getD_eq_default xs [] (by omega)]
    simp

/-- The queue after an enqueue filled slot `idx` with `payload`. -/
def qAfterEnq (q : DfQueue) (idx : Nat) (payload : List Nat) : DfQueue :=
  { q with slots := Function.update q.slots idx (slot_fill (q.slots idx) payload) }

/-- A slot after release: size zeroed, status published EMPTY. -/
def slot_clear (s : DfQueueSlot) : DfQueueSlot :=
  { s with size := 0, status := SLOT_FLAG.SLOT_EMPTY }

/-- The queue after a release emptied slot `idx`. -/
def qAfterRelease (q : DfQueue) (idx : Nat) : DfQueue :=
  { q with slots := Function.update q.slots idx (slot_clear (q.slots idx)) }

theorem df_enqueue_vector_eq_of_empty (q : DfQueue) (ep : DfQueueEp)
    (vec : List (List Nat))
    (hle : sum_iov vec ≤ q.max_payload_size)
    (hstatus : (q.slots ep.slot_index).status = SLOT_FLAG.SLOT_EMPTY) :
    df_enqueue_vector q ep vec =
      some (0, qAfterEnq q ep.slot_index vec.flatten,
        { ep with slot_index := (ep.slot_index + 1) % q.max_num_slots }) := by
  unfold df_enqueue_vector qAfterEnq
  simp only []
  rw [if_pos hle, hstatus, if_neg (by simp)]

theorem df_release_eq (q : DfQueue) (ep : DfQueueEp) :
    df_release q ep =
      (qAfterRelease q ep.slot_index,
       { ep with slot_index := (ep.slot_index + 1) % q.max_num_slots }) := by
  unfold df_release qAfterRelease slot_clear
  rfl

/-- The invariant holds in the initial state. -/
theorem QInv_init (xs : List (List Nat)) (n p : Nat) (mem : Nat → DfQueueSlot)
    (hn : 0 < n) : QInv xs n p 0 0 (initQState mem n p) := by
  refine ⟨hn, rfl, rfl, by simp [initQState], by simp [initQState],
    le_refl 0, by omega, ?_, ?_⟩
  · intro i _ hi
    omega
  · intro j hj _
    show ((df_create_queue mem n p).slots j).status = SLOT_FLAG.SLOT_EMPTY
    unfold df_create_queue
    simp [hj]

/-- Producer step: under the invariant, with a free slot available and a
fitting payload, the blocking enqueue succeeds and re-establishes the
invariant with the enqueue count advanced. -/
theorem QInv_enq_step (xs : List (List Nat)) (n p e r : Nat) (s : QState)
    (h : QInv xs n p e r s) (hlt : e - r < n)
    (hplen : (xs.getD e []).length ≤ p) :
    df_enqueue_vector s.q s.prod [xs.getD e []] =
      some (0, qAfterEnq s.q (e % n) (xs.getD e []),
        { s.prod with slot_index := (e + 1) % n }) ∧
    QInv xs n p (e + 1) r
      ⟨qAfterEnq s.q (e % n) (xs.getD e []),
       { s.prod with slot_index := (e + 1) % n }, s.cons⟩ := by
  obtain ⟨hn, hmaxn, hmaxp, hprod, hcons, hre, hern, hfull, hempty⟩ := h
  have hstatus : (s.q.slots (e % n)).status = SLOT_FLAG.SLOT_EMPTY := by
    refine hempty (e % n) (Nat.mod_lt e hn) ?_
    intro i hri hie
    exact mod_ne_of_lt_of_sub_lt hie (by omega)
  have hsum : sum_iov [xs.getD e []] = (xs.getD e []).length := by simp [sum_iov]
  have hle : sum_iov [xs.getD e []] ≤ s.q.max_payload_size := by
    rw [hsum, hmaxp]; exact hplen
  have hflat : ([xs.getD e []] : List (List Nat)).flatten = xs.getD e [] := by simp
  constructor
  · rw [df_enqueue_vector_eq_of_empty s.q s.prod _ hle (by rw [hprod]; exact hstatus)]
    rw [hflat, hprod, hmaxn, mod_succ_mod]
  · refine ⟨hn, hmaxn, hmaxp, rfl, hcons, by omega, by omega, ?_, ?_⟩
    · intro i hri hie
      show ((qAfterEnq s.q (e % n) (xs.getD e [])).slots (i % n)).status = _ ∧ _
      unfold qAfterEnq
      by_cases hi : i = e
      · subst hi
        simp only [Function.update_same]
        refine ⟨rfl, rfl, ?_⟩
        show ((xs.getD i []) ++ _).take (xs.getD i []).length = xs.getD i []
        exact List.take_left _ _
      · have hie' : i < e := by omega
        have hne : i % n ≠ e % n := mod_ne_of_lt_of_sub_lt hie' (by omega)
        simp only [Function.update_noteq hne]
        exact hfull i hri hie'
    · intro j hj halias
      show ((qAfterEnq s.q (e % n) (xs.getD e [])).slots j).status = _
      unfold qAfterEnq
      have hje : j ≠ e % n := fun hj' => halias e hre (by omega) hj'.symm
      simp only [Function.update_noteq hje]
      refine hempty j hj ?_
      intro i hri hie
      exact halias i hri (by omega)

/-- Consumer step: under the invariant, with an undelivered message pending,
the blocking dequeue returns exactly payload `xs.getD r []` with its length,
and the subsequent release re-establishes the invariant with the release
count advanced. -/
theorem QInv_deqrel_step (xs : List (List Nat)) (n p e r : Nat) (s : QState)
    (h : QInv xs n p e r s) (hlt : r < e) :
    df_dequeue s.q s.cons = some (xs.getD r [], (xs.getD r []).length) ∧
    df_release s.q s.cons =
      (qAfterRelease s.q (r % n), { s.cons with slot_index := (r + 1) % n }) ∧
    QInv xs n p e (r + 1)
      ⟨qAfterRelease s.q (r % n), s.prod,
       { s.cons with slot_index := (r + 1) % n }⟩ := by
  obtain ⟨hn, hmaxn, hmaxp, hprod, hcons, hre, hern, hfull, hempty⟩ := h
  obtain ⟨hstat, hsize, hdata⟩ := hfull r (le_refl r) hlt
  refine ⟨?_, ?_, ?_⟩
  · unfold df_dequeue
    rw [hcons, if_neg (by simp [hstat]), hsize, hdata]
  · rw [df_release_eq, hcons, hmaxn, mod_succ_mod]
  · refine ⟨hn, hmaxn, hmaxp, hprod, rfl, by omega, by omega, ?_, ?_⟩
    · intro i hri hie
      show ((qAfterRelease s.q (r % n)).slots (i % n)).status = _ ∧ _
      unfold qAfterRelease
      have hne : i % n ≠ r % n :=
        Ne.symm (mod_ne_of_lt_of_sub_lt (show r < i by omega) (show i - r < n by omega))
      simp only [Function.update_noteq hne]
      exact hfull i (by omega) hie
    · intro j hj halias
      show ((qAfterRelease s.q (r % n)).slots j).status = _
      unfold qAfterRelease
      by_cases hjr : j = r % n
      · subst hjr
        simp only [Function.update_same]
        rfl
      · simp only [Function.update_noteq hjr]
        refine hempty j hj ?_
        intro i hri hie
        by_cases hir : i = r
        · subst hir
          exact fun hc => hjr hc.symm
        · exact halias i (by omega) hie

/-- Main run lemma: from any state satisfying the invariant, a feasible
schedule runs to completion and every dequeue returns the expected payload. -/
theorem runFrom_spec (xs : List (List Nat)) (n p : Nat)
    (hxs : ∀ x ∈ xs, x.length ≤ p) (ops : List QOp) :
    ∀ (e r : Nat) (s : QState),
      QInv xs n p e r s → schedOk n ops e r = true →
      runFrom xs ops s e r = some (expectedOut xs ops r) := by
  induction ops with
  | nil =>
    intro e r s _ _
    simp [runFrom, expectedOut]
  | cons op rest ih =>
    intro e r s hinv hsched
    cases op with
    | enq =>
      unfold schedOk at hsched
      rw [Bool.and_eq_true, decide_eq_true_iff] at hsched
      obtain ⟨hlt, hrest⟩ := hsched
      obtain ⟨henq, hinv'⟩ :=
        QInv_enq_step xs n p e r s hinv hlt (getD_length_le hxs e)
      unfold runFrom
      rw [henq]
      show runFrom xs rest _ (e + 1) r = some (expectedOut xs (QOp.enq :: rest) r)
      unfold expectedOut
      exact ih (e + 1) r _ hinv' hrest
    | deqrel =>
      unfold schedOk at hsched
      rw [Bool.and_eq_true, decide_eq_true_iff] at hsched
      obtain ⟨hlt, hrest⟩ := hsched
      obtain ⟨hdq, hrel, hinv'⟩ := QInv_deqrel_step xs n p e r s hinv hlt
      unfold runFrom
      rw [hdq]
      simp only []
      rw [hrel]
      show (match runFrom xs rest
            ⟨qAfterRelease s.q (r % n), s.prod,
              { s.cons with slot_index := (r + 1) % n }⟩ e (r + 1) with
          | none => none
          | some outs => some ((xs.getD r [], (xs.getD r []).length) :: outs)) =
        some (expectedOut xs (QOp.deqrel :: rest) r)
      rw [ih e (r + 1) _ hinv' hrest]
      rfl

/-- `expectedOut` spelled out by dequeue index: the `i`-th dequeue/release
pair of the schedule yields payload `xs.getD (r+i) []` with its length. -/
theorem expectedOut_eq_ofFn (xs : List (List Nat)) (ops : List QOp) :
    ∀ r, expectedOut xs ops r =
      (List.range (cntDeq ops)).map
        (fun i => (xs.getD (r + i) [], (xs.getD (r + i) []).length)) := by
  induction ops with
  | nil =>
    intro r
    simp [expectedOut, cntDeq]
  | cons op rest ih =>
    intro r
    cases op with
    | enq =>
      unfold expectedOut cntDeq
      exact ih r
    | deqrel =>
      unfold expectedOut cntDeq
      rw [ih (r + 1)]
      rw [Nat.add_comm 1 (cntDeq rest), List.range_succ_eq_map]
      simp only [List.map_cons, List.map_map, Nat.add_zero, Function.comp]
      congr 1
      apply List.map_congr_left
      intro i _
      have : r + 1 + i = r + (i + 1) := by omega
      rw [this]
      simp [Function.comp]

/-- Claim C1 (FIFO delivery): for a queue created with `n` slots and payload
bound `p`, and any interleaving of blocking enqueues of payloads
`xs_0, xs_1, …` (each of length ≤ p) with dequeue/release pairs in which
every enqueue finds a free slot and every dequeue has a matching earlier
enqueue, the run completes and the `i`-th dequeue hands the consumer exactly
the bytes of `xs_i`, bit-identical and with the same length, in enqueue
order. -/
theorem C1_fifo_delivery (mem : Nat → DfQueueSlot) (n p : Nat)
    (xs : List (List Nat)) (ops : List QOp)
    (hn : 0 < n) (hp : 0 < p)
    (hxs : ∀ x ∈ xs, x.length ≤ p)
    (hsched : schedOk n ops 0 0 = true) :
    runFrom xs ops (initQState mem n p) 0 0 =
      some ((List.range (cntDeq ops)).map
        (fun i => (xs.getD i [], (xs.getD i []).length))) := by
  rw [runFrom_spec xs n p hxs ops 0 0 (initQState mem n p)
    (QInv_init xs n p mem hn) hsched]
  rw [expectedOut_eq_ofFn xs ops 0]
  simp

/-- Witness for C1: two slots, three messages, schedule
enq, enq, deqrel, enq, deqrel, deqrel. -/
theorem C1_fifo_delivery_witness :
    runFrom [[1, 2], [3], [4, 5, 6]]
        [QOp.enq, QOp.enq, QOp.deqrel, QOp.enq, QOp.deqrel, QOp.deqrel]
        (initQState (fun _ => ⟨SLOT_FLAG.SLOT_EMPTY, 0, []⟩) 2 3) 0 0 =
      some ((List.range (cntDeq
          [QOp.enq, QOp.enq, QOp.deqrel, QOp.enq, QOp.deqrel, QOp.deqrel])).map
        (fun i => (([[1, 2], [3], [4, 5, 6]] : List (List Nat)).getD i [],
          (([[1, 2], [3], [4, 5, 6]] : List (List Nat)).getD i []).length))) :=
  C1_fifo_delivery (fun _ => ⟨SLOT_FLAG.SLOT_EMPTY, 0, []⟩) 2 3
    [[1, 2], [3], [4, 5, 6]]
    [QOp.enq, QOp.enq, QOp.deqrel, QOp.enq, QOp.deqrel, QOp.deqrel]
    (by decide) (by decide) (by decide) (by decide)

/-! ## Region manager model (df_shm.c)

Region handles are identified by the natural number `id` assigned at
allocation (`malloc` never returns the same address twice while the first is
live; freshness is modelled by a monotone counter).  A method handle keeps
the two bookkeeping lists as lists of ids (prepend on create/attach, as
`add_region_to_list` inserts at the head; `remove_region_from_list` removes
the first — necessarily only — matching node, a no-op but a warning when the
region is not on the list).  `live` is the set of handles that have been
`malloc`ed and not yet `free`d.  Every backend callback is parameterised by
a Boolean success flag. -/

namespace RegionMgr

def DF_SHM_UNKNOWN_PID : Int := -1

structure df_shm_region where
  id : Nat
  creator_id : Int
deriving DecidableEq, Repr

structure df_shm_method where
  next_id : Nat
  live : List df_shm_region
  created_regions : List Nat
  foreign_regions : List Nat
  num_created_regions : Int
  num_foreign_regions : Int
deriving DecidableEq, Repr

/-- Method handle as returned by `df_shm_init`: both lists empty. -/
def df_shm_init_state : df_shm_method :=
  { next_id := 0, live := [], created_regions := [], foreign_regions := []
    num_created_regions := 0, num_foreign_regions := 0 }

/-- `df_create_shm_region` from df_shm.c: on backend success the fresh handle
(creator_id = getpid()) is prepended to the created list; on backend failure
the handle is freed and nothing is inserted. -/
def df_create_shm_region (mypid : Int) (backend_ok : Bool) (m : df_shm_method) :
    df_shm_method × Option Nat :=
  if backend_ok then
    ({ m with
        next_id := m.next_id + 1
        live := ⟨m.next_id, mypid⟩ :: m.live
        created_regions := m.next_id :: m.created_regions
        num_created_regions := m.num_created_regions + 1 },
     some m.next_id)
  else (m, none)

/-- `df_create_named_shm_region` from df_shm.c: identical list bookkeeping to
`df_create_shm_region` (only the backend callback invoked differs). -/
def df_create_named_shm_region (mypid : Int) (backend_ok : Bool)
    (m : df_shm_method) : df_shm_method × Option Nat :=
  df_create_shm_region mypid backend_ok m

/-- `df_attach_shm_region` from df_shm.c: on backend success the fresh handle
(creator_id as supplied by the caller) is prepended to the foreign list. -/
def df_attach_shm_region (creator_id : Int) (backend_ok : Bool)
    (m : df_shm_method) : df_shm_method × Option Nat :=
  if backend_ok then
    ({ m with
        next_id := m.next_id + 1
        live := ⟨m.next_id, creator_id⟩ :: m.live
        foreign_regions := m.next_id :: m.foreign_regions
        num_foreign_regions := m.num_foreign_regions + 1 },
     some m.next_id)
  else (m, none)

/-- `df_attach_named_shm_region` from df_shm.c: as attach, with the creator
recorded as `DF_SHM_UNKNOWN_PID`. -/
def df_attach_named_shm_region (backend_ok : Bool) (m : df_shm_method) :
    df_shm_method × Option Nat :=
  df_attach_shm_region DF_SHM_UNKNOWN_PID backend_ok m

/-- `df_detach_shm_region` from df_shm.c: if the backend detach callback
fails the handle is freed and −1 returned with the lists untouched (the
handle's list entry dangles); on success the handle is removed from the
foreign list (a warning-only no-op if absent), the foreign count is
decremented, and the handle freed. -/
def df_detach_shm_region (backend_ok : Bool) (r : df_shm_region)
    (m : df_shm_method) : df_shm_method × Int :=
  if backend_ok then
    ({ m with
        live := m.live.filter (fun x => x.id ≠ r.id)
        foreign_regions := m.foreign_regions.erase r.id
        num_foreign_regions := m.num_foreign_regions - 1 },
     0)
  else
    ({ m with live := m.live.filter (fun x => x.id ≠ r.id) }, -1)

/-- `df_destroy_shm_region` from df_shm.c: if the handle's creator_id equals
this process's pid, the backend destroy callback runs — on failure the handle
is freed and −1 returned with the created list untouched, on success the
handle is removed from the created list and freed (the created count is not
decremented by the source); otherwise the call falls through to
`df_detach_shm_region`. -/
def df_destroy_shm_region (mypid : Int) (backend_ok : Bool) (r : df_shm_region)
    (m : df_shm_method) : df_shm_method × Int :=
  if r.creator_id = mypid then
    if backend_ok then
      ({ m with
          live := m.live.filter (fun x => x.id ≠ r.id)
          created_regions := m.created_regions.erase r.id },
       0)
    else
      ({ m with live := m.live.filter (fun x => x.id ≠ r.id) }, -1)
  else
    df_detach_shm_region backend_ok r m

/-- One region-manager call.  Detach and destroy name the live handle they
act on by its position in `live`; an out-of-range position models "no such
call" and leaves the state unchanged. -/
inductive RegionOp where
  | create (ok : Bool)
  | createNamed (ok : Bool)
  | attach (creator : Int) (ok : Bool)
  | attachNamed (ok : Bool)
  | detach (i : Nat) (ok : Bool)
  | destroy (i : Nat) (ok : Bool)
deriving DecidableEq, Repr

def applyRegionOp (mypid : Int) (m : df_shm_method) : RegionOp → df_shm_method
  | RegionOp.create ok => (df_create_shm_region mypid ok m).1
  | RegionOp.createNamed ok => (df_create_named_shm_region mypid ok m).1
  | RegionOp.attach creator ok => (df_attach_shm_region creator ok m).1
  | RegionOp.attachNamed ok => (df_attach_named_shm_region ok m).1
  | RegionOp.detach i ok =>
    match m.live.get? i with
    | none => m
    | some r => (df_detach_shm_region ok r m).1
  | RegionOp.destroy i ok =>
    match m.live.get? i with
    | none => m
    | some r => (df_destroy_shm_region mypid ok r m).1

def runRegionOps (mypid : Int) (ops : List RegionOp) : df_shm_method :=
  ops.foldl (applyRegionOp mypid) df_shm_init_state

/-- Bookkeeping invariant: ids are allocated below the counter, live handles
have pairwise distinct ids, and every live handle is on exactly one of the
two lists. -/
def RegionInv (m : df_shm_method) : Prop :=
  (∀ r ∈ m.live, r.id < m.next_id) ∧
  (m.live.map df_shm_region.id).Nodup ∧
  (∀ i ∈ m.created_regions, i < m.next_id) ∧
  (∀ i ∈ m.foreign_regions, i < m.next_id) ∧
  (∀ r ∈ m.live,
    (r.id ∈ m.created_regions ∧ r.id ∉ m.foreign_regions) ∨
    (r.id ∉ m.created_regions ∧ r.id ∈ m.foreign_regions))

theorem RegionInv_init : RegionInv df_shm_init_state := by
  refine ⟨?_, ?_, ?_, ?_, ?_⟩ <;> simp [df_shm_init_state]

theorem mem_filter_ne {l : List df_shm_region} {x : df_shm_region} {rid : Nat}
    (hx : x ∈ l.filter (fun y => y.id ≠ rid)) : x ∈ l ∧ x.id ≠ rid := by
  rw [List.mem_filter] at hx
  exact ⟨hx.1, by simpa using hx.2⟩

theorem nodup_map_id_filter {l : List df_shm_region} {rid : Nat}
    (h : (l.map df_shm_region.id).Nodup) :
    ((l.filter (fun y => y.id ≠ rid)).map df_shm_region.id).Nodup :=
  ((List.filter_sublist l).map df_shm_region.id).nodup h

/-- All four removal-shaped outcomes of detach/destroy preserve the
invariant: the live list is filtered by the freed handle's id and each
bookkeeping list is either untouched or has that id erased. -/
theorem RegionInv_of_remove {m m' : df_shm_method} {rid : Nat}
    (h : RegionInv m)
    (hn : m'.next_id = m.next_id)
    (hl : m'.live = m.live.filter (fun x => x.id ≠ rid))
    (hcr : m'.created_regions = m.created_regions ∨
      m'.created_regions = m.created_regions.erase rid)
    (hfo : m'.foreign_regions = m.foreign_regions ∨
      m'.foreign_regions = m.foreign_regions.erase rid) :
    RegionInv m' := by
  obtain ⟨hlt, hnd, hc, hf, hone⟩ := h
  have hcr_sub : ∀ i, i ∈ m'.created_regions → i ∈ m.created_regions := by
    intro i hi
    rcases hcr with hcr | hcr <;> rw [hcr] at hi
    · exact hi
    · exact List.mem_of_mem_erase hi
  have hfo_sub : ∀ i, i ∈ m'.foreign_regions → i ∈ m.foreign_regions := by
    intro i hi
    rcases hfo with hfo | hfo <;> rw [hfo] at hi
    · exact hi
    · exact List.mem_of_mem_erase hi
  have hcr_of : ∀ i, i ≠ rid → i ∈ m.created_regions → i ∈ m'.created_regions := by
    intro i hne hi
    rcases hcr with hcr | hcr <;> rw [hcr]
    · exact hi
    · exact (List.mem_erase_of_ne hne).mpr hi
  have hfo_of : ∀ i, i ≠ rid → i ∈ m.foreign_regions → i ∈ m'.foreign_regions := by
    intro i hne hi
    rcases hfo with hfo | hfo <;> rw [hfo]
    · exact hi
    · exact (List.mem_erase_of_ne hne).mpr hi
  refine ⟨?_, ?_, ?_, ?_, ?_⟩
  · intro r hr
    rw [hl] at hr
    rw [hn]
    exact hlt r (mem_filter_ne hr).1
  · rw [hl]
    exact nodup_map_id_filter hnd
  · intro i hi
    rw [hn]
    exact hc i (hcr_sub i hi)
  · intro i hi
    rw [hn]
    exact hf i (hfo_sub i hi)
  · intro r hr
    rw [hl] at hr
    obtain ⟨hrl, hrid⟩ := mem_filter_ne hr
    rcases hone r hrl with ⟨hin, hout⟩ | ⟨hout, hin⟩
    · exact Or.inl ⟨hcr_of r.id hrid hin, fun hmem => hout (hfo_sub _ hmem)⟩
    · exact Or.inr ⟨fun hmem => hout (hcr_sub _ hmem), hfo_of r.id hrid hin⟩

/-- A fresh-insert (create or attach) preserves the invariant. -/
theorem RegionInv_of_insert {m m' : df_shm_method} {creator : Int}
    (h : RegionInv m)
    (hn : m'.next_id = m.next_id + 1)
    (hl : m'.live = ⟨m.next_id, creator⟩ :: m.live)
    (hlists :
      (m'.created_regions = m.next_id :: m.created_regions ∧
        m'.foreign_regions = m.foreign_regions) ∨
      (m'.created_regions = m.created_regions ∧
        m'.foreign_regions = m.next_id :: m.foreign_regions)) :
    RegionInv m' := by
  obtain ⟨hlt, hnd, hc, hf, hone⟩ := h
  have hcr_mem : ∀ i, i ∈ m'.created_regions → i = m.next_id ∨ i ∈ m.created_regions := by
    intro i hi
    rcases hlists with ⟨h1, _⟩ | ⟨h1, _⟩ <;> rw [h1] at hi
    · exact List.mem_cons.mp hi
    · exact Or.inr hi
  have hfo_mem : ∀ i, i ∈ m'.foreign_regions → i = m.next_id ∨ i ∈ m.foreign_regions := by
    intro i hi
    rcases hlists with ⟨_, h2⟩ | ⟨_, h2⟩ <;> rw [h2] at hi
    · exact Or.inr hi
    · exact List.mem_cons.mp hi
  refine ⟨?_, ?_, ?_, ?_, ?_⟩
  · intro r hr
    rw [hl] at hr
    rw [hn]
    rcases List.mem_cons.mp hr with hr | hr
    · rw [hr]
      show m.next_id < m.next_id + 1
      omega
    · have := hlt r hr
      omega
  · rw [hl]
    simp only [List.map_cons]
    refine List.nodup_cons.mpr ⟨?_, hnd⟩
    intro hmem
    obtain ⟨r, hr, hrid⟩ := List.mem_map.mp hmem
    have := hlt r hr
    omega
  · intro i hi
    rw [hn]
    rcases hcr_mem i hi with hi' | hi'
    · omega
    · have := hc i hi'
      omega
  · intro i hi
    rw [hn]
    rcases hfo_mem i hi with hi' | hi'
    · omega
    · have := hf i hi'
      omega
  · intro r hr
    rw [hl] at hr
    rcases List.mem_cons.mp hr with hr | hr
    · have hid : r.id = m.next_id := by rw [hr]
      rcases hlists with ⟨h1, h2⟩ | ⟨h1, h2⟩
      · refine Or.inl ⟨by rw [h1, hid]; exact List.mem_cons_self _ _, ?_⟩
        intro hmem
        rw [hid] at hmem
        have := hf _ (by rw [h2] at hmem; exact hmem)
        omega
      · refine Or.inr ⟨?_, by rw [h2, hid]; exact List.mem_cons_self _ _⟩
        intro hmem
        rw [hid] at hmem
        have := hc _ (by rw [h1] at hmem; exact hmem)
        omega
    · have hrlt := hlt r hr
      rcases hone r hr with ⟨hin, hout⟩ | ⟨hout, hin⟩
      · refine Or.inl ⟨?_, ?_⟩
        · rcases hlists with ⟨h1, _⟩ | ⟨h1, _⟩ <;> rw [h1]
          · exact List.mem_cons_of_mem _ hin
          · exact hin
        · intro hmem
          rcases hfo_mem _ hmem with hid | hid
          · omega
          · exact hout hid
      · refine Or.inr ⟨?_, ?_⟩
        · intro hmem
          rcases hcr_mem _ hmem with hid | hid
          · omega
          · exact hout hid
        · rcases hlists with ⟨_, h2⟩ | ⟨_, h2⟩ <;> rw [h2]
          · exact hin
          · exact List.mem_cons_of_mem _ hin

theorem RegionInv_applyRegionOp (mypid : Int) (m : df_shm_method)
    (op : RegionOp) (h : RegionInv m) : RegionInv (applyRegionOp mypid m op) := by
  cases op with
  | create ok =>
    show RegionInv (df_create_shm_region mypid ok m).1
    unfold df_create_shm_region
    cases ok
    · exact h
    · exact RegionInv_of_insert h rfl rfl (Or.inl ⟨rfl, rfl⟩)
  | createNamed ok =>
    show RegionInv (df_create_named_shm_region mypid ok m).1
    unfold df_create_named_shm_region df_create_shm_region
    cases ok
    · exact h
    · exact RegionInv_of_insert h rfl rfl (Or.inl ⟨rfl, rfl⟩)
  | attach creator ok =>
    show RegionInv (df_attach_shm_region creator ok m).1
    unfold df_attach_shm_region
    cases ok
    · exact h
    · exact RegionInv_of_insert h rfl rfl (Or.inr ⟨rfl, rfl⟩)
  | attachNamed ok =>
    show RegionInv (df_attach_named_shm_region ok m).1
    unfold df_attach_named_shm_region df_attach_shm_region
    cases ok
    · exact h
    · exact RegionInv_of_insert h rfl rfl (Or.inr ⟨rfl, rfl⟩)
  | detach i ok =>
    show RegionInv (match m.live.get? i with
      | none => m
      | some r => (df_detach_shm_region ok r m).1)
    cases m.live.get? i with
    | none => exact h
    | some r =>
      unfold df_detach_shm_region
      cases ok
      · exact RegionInv_of_remove h rfl rfl (Or.inl rfl) (Or.inl rfl)
      · exact RegionInv_of_remove h rfl rfl (Or.inl rfl) (Or.inr rfl)
  | destroy i ok =>
    show RegionInv (match m.live.get? i with
      | none => m
      | some r => (df_destroy_shm_region mypid ok r m).1)
    cases m.live.get? i with
    | none => exact h
    | some r =>
      show RegionInv (df_destroy_shm_region mypid ok r m).1
      unfold df_destroy_shm_region df_detach_shm_region
      by_cases hcreator : r.creator_id = mypid
      · rw [if_pos hcreator]
        cases ok
        · exact RegionInv_of_remove h rfl rfl (Or.inl rfl) (Or.inl rfl)
        · exact RegionInv_of_remove h rfl rfl (Or.inr rfl) (Or.inl rfl)
      · rw [if_neg hcreator]
        cases ok
        · exact RegionInv_of_remove h rfl rfl (Or.inl rfl) (Or.inl rfl)
        · exact RegionInv_of_remove h rfl rfl (Or.inl rfl) (Or.inr rfl)

theorem RegionInv_foldl (mypid : Int) (ops : List RegionOp) :
    ∀ m, RegionInv m → RegionInv (ops.foldl (applyRegionOp mypid) m) := by
  induction ops with
  | nil => intro m h; exact h
  | cons op rest ih =>
    intro m h
    exact ih _ (RegionInv_applyRegionOp mypid m op h)

/-! ### `df_shm_finalize` (df_shm.c)

The function walks the created list calling `df_destroy_shm_region` on each
node (saving `next` first, so the walk covers every node even when a destroy
fails and leaves its node on the list), then walks the foreign list calling
`df_detach_shm_region`, then invokes the backend finalize callback; the
per-region return codes are discarded.  If the callback fails the function
returns −1 without freeing the method handle; otherwise it frees the handle
and returns 0.  The model records the sequence of cleanup calls together
with the return code each produced (`df_destroy_shm_region` and
`df_detach_shm_region` return 0 on backend success and −1 on backend
failure), the overall return code, and whether the handle was freed. -/

inductive CleanupCall where
  | destroyRegion (id : Nat) (rc : Int)
  | detachRegion (id : Nat) (rc : Int)
  | backendFinalize (rc : Int)
deriving DecidableEq, Repr

/-- The created-list walk of `df_shm_finalize`: each node gets a
`df_destroy_shm_region` call whose return code is discarded. -/
def finalize_destroy_walk (destroy_ok : Nat → Bool) : List Nat → List CleanupCall
  | [] => []
  | id :: rest =>
    CleanupCall.destroyRegion id (if destroy_ok id then 0 else -1) ::
      finalize_destroy_walk destroy_ok rest

/-- The foreign-list walk of `df_shm_finalize`: each node gets a
`df_detach_shm_region` call whose return code is discarded. -/
def finalize_detach_walk (detach_ok : Nat → Bool) : List Nat → List CleanupCall
  | [] => []
  | id :: rest =>
    CleanupCall.detachRegion id (if detach_ok id then 0 else -1) ::
      finalize_detach_walk detach_ok rest

/-- `df_shm_finalize` from df_shm.c: result is (cleanup-call trace, return
code, whether the method handle was freed). -/
def df_shm_finalize (destroy_ok detach_ok : Nat → Bool) (finalize_ok : Bool)
    (m : df_shm_method) : List CleanupCall × Int × Bool :=
  let calls := finalize_destroy_walk destroy_ok m.created_regions ++
    finalize_detach_walk detach_ok m.foreign_regions
  if finalize_ok then
    (calls ++ [CleanupCall.backendFinalize 0], 0, true)
  else
    (calls ++ [CleanupCall.backendFinalize (-1)], -1, false)

theorem finalize_destroy_walk_eq (destroy_ok : Nat → Bool) (l : List Nat) :
    finalize_destroy_walk destroy_ok l =
      l.map (fun id => CleanupCall.destroyRegion id (if destroy_ok id then 0 else -1)) := by
  induction l with
  | nil => rfl
  | cons id rest ih =>
    unfold finalize_destroy_walk
    rw [ih, List.map_cons]

theorem finalize_detach_walk_eq (detach_ok : Nat → Bool) (l : List Nat) :
    finalize_detach_walk detach_ok l =
      l.map (fun id => CleanupCall.detachRegion id (if detach_ok id then 0 else -1)) := by
  induction l with
  | nil => rfl
  | cons id rest ih =>
    unfold finalize_detach_walk
    rw [ih, List.map_cons]

end RegionMgr

/-- Claim C6 (region-list invariant): after any sequence of create /
create-named / attach / attach-named / detach / destroy calls on a method
handle (each with either backend outcome), every live region handle of the
method is reachable through exactly one of the created-regions list and the
foreign-regions list — never both and never neither. -/
theorem C6_region_list_invariant (mypid : Int) (ops : List RegionMgr.RegionOp)
    (r : RegionMgr.df_shm_region)
    (hr : r ∈ (RegionMgr.runRegionOps mypid ops).live) :
    (r.id ∈ (RegionMgr.runRegionOps mypid ops).created_regions ∧
      r.id ∉ (RegionMgr.runRegionOps mypid ops).foreign_regions) ∨
    (r.id ∉ (RegionMgr.runRegionOps mypid ops).created_regions ∧
      r.id ∈ (RegionMgr.runRegionOps mypid ops).foreign_regions) := by
  have hinv : RegionMgr.RegionInv (RegionMgr.runRegionOps mypid ops) :=
    RegionMgr.RegionInv_foldl mypid ops _ RegionMgr.RegionInv_init
  exact hinv.2.2.2.2 r hr

/-- Witness for C6: create, attach, destroy-the-first-created, create again;
the surviving handles each sit on exactly one list. -/
theorem C6_region_list_invariant_witness :
    (⟨1, -1⟩ : RegionMgr.df_shm_region) ∈
      (RegionMgr.runRegionOps 5
        [RegionMgr.RegionOp.create true, RegionMgr.RegionOp.attach (-1) true,
         RegionMgr.RegionOp.destroy 1 true, RegionMgr.RegionOp.create false,
         RegionMgr.RegionOp.create true]).live ∧
    (((1 : Nat) ∈ (RegionMgr.runRegionOps 5
        [RegionMgr.RegionOp.create true, RegionMgr.RegionOp.attach (-1) true,
         RegionMgr.RegionOp.destroy 1 true, RegionMgr.RegionOp.create false,
         RegionMgr.RegionOp.create true]).created_regions ∧
      (1 : Nat) ∉ (RegionMgr.runRegionOps 5
        [RegionMgr.RegionOp.create true, RegionMgr.RegionOp.attach (-1) true,
         RegionMgr.RegionOp.destroy 1 true, RegionMgr.RegionOp.create false,
         RegionMgr.RegionOp.create true]).foreign_regions) ∨
     ((1 : Nat) ∉ (RegionMgr.runRegionOps 5
        [RegionMgr.RegionOp.create true, RegionMgr.RegionOp.attach (-1) true,
         RegionMgr.RegionOp.destroy 1 true, RegionMgr.RegionOp.create false,
         RegionMgr.RegionOp.create true]).created_regions ∧
      (1 : Nat) ∈ (RegionMgr.runRegionOps 5
        [RegionMgr.RegionOp.create true, RegionMgr.RegionOp.attach (-1) true,
         RegionMgr.RegionOp.destroy 1 true, RegionMgr.RegionOp.create false,
         RegionMgr.RegionOp.create true]).foreign_regions)) :=
  ⟨by decide,
   C6_region_list_invariant 5
     [RegionMgr.RegionOp.create true, RegionMgr.RegionOp.attach (-1) true,
      RegionMgr.RegionOp.destroy 1 true, RegionMgr.RegionOp.create false,
      RegionMgr.RegionOp.create true] ⟨1, -1⟩ (by decide)⟩

/-- A method handle holding one created region (id 0) and no attached
regions, as after a single successful `df_create_shm_region` by pid 5. -/
def c7_method : RegionMgr.df_shm_method :=
  { next_id := 1, live := [⟨0, 5⟩], created_regions := [0], foreign_regions := []
    num_created_regions := 1, num_foreign_regions := 0 }

/-- Claim C7 counterexample: when the destroy of the only created region
fails (its `df_destroy_shm_region` call returns −1) but the backend finalize
callback succeeds, `df_shm_finalize` returns 0 — not the first failure code
encountered, which was −1. -/
theorem C7_counterexample :
    (RegionMgr.df_shm_finalize (fun _ => false) (fun _ => true) true c7_method).1 =
      [RegionMgr.CleanupCall.destroyRegion 0 (-1),
       RegionMgr.CleanupCall.backendFinalize 0] ∧
    (RegionMgr.df_shm_finalize (fun _ => false) (fun _ => true) true c7_method).2.1 = 0 ∧
    (0 : Int) ≠ -1 := by
  refine ⟨by decide, by decide, by decide⟩

/-- Claim C7 as amended: `df_shm_finalize` calls destroy on every region of
the created list, then detach on every region of the foreign list, then the
backend finalize callback — continuing through all cleanups even when some
fail — but the per-region return codes are discarded: it returns −1 exactly
when the backend finalize callback fails, in which case the method handle is
not freed, and 0 otherwise, in which case the handle is freed. -/
theorem C7_finalize_order_and_return (destroy_ok detach_ok : Nat → Bool)
    (finalize_ok : Bool) (m : RegionMgr.df_shm_method) :
    (RegionMgr.df_shm_finalize destroy_ok detach_ok finalize_ok m).1 =
      m.created_regions.map
        (fun id => RegionMgr.CleanupCall.destroyRegion id
          (if destroy_ok id then 0 else -1)) ++
      m.foreign_regions.map
        (fun id => RegionMgr.CleanupCall.detachRegion id
          (if detach_ok id then 0 else -1)) ++
      [RegionMgr.CleanupCall.backendFinalize (if finalize_ok then 0 else -1)] ∧
    (RegionMgr.df_shm_finalize destroy_ok detach_ok finalize_ok m).2.1 =
      (if finalize_ok then 0 else -1) ∧
    (RegionMgr.df_shm_finalize destroy_ok detach_ok finalize_ok m).2.2 =
      finalize_ok := by
  unfold RegionMgr.df_shm_finalize
  rw [RegionMgr.finalize_destroy_walk_eq, RegionMgr.finalize_detach_walk_eq]
  cases finalize_ok <;> simp

/-! ## SysV backend (df_shm_sysv.c)

`df_shm_method_sysv_init` mallocs the method data and fills `default_flag`,
`my_pid` and `path`; the local variable `int token_id = 1;` is never stored
into `m_data->token_id`, so that field keeps whatever bytes `malloc`
returned.  The model makes this explicit by threading the indeterminate heap
contents in as the `garbage_token` parameter: the returned record's
`token_id` is exactly that parameter.  `ftok` is an abstract function of the
anchor path and the token; a result of −1 is the failure case. -/

namespace Sysv

structure shm_sysv_method_data where
  default_flag : Nat
  path : String
  token_id : Int
  my_pid : Int
deriving DecidableEq, Repr

structure shm_sysv_region_data where
  key : Int
deriving DecidableEq, Repr

/-- `df_shm_method_sysv_init` from df_shm_sysv.c.  `open_ok` is the success
of creating the anchor file; `garbage_token` is the indeterminate content of
the freshly `malloc`ed `token_id` field, which the function never writes. -/
def df_shm_method_sysv_init (pid : Int) (garbage_token : Int) (open_ok : Bool) :
    Option shm_sysv_method_data :=
  if open_ok then
    some { default_flag := 0x180
           path := "/tmp/df_shm_sysv." ++ toString pid
           token_id := garbage_token
           my_pid := pid }
  else none

/-- `df_shm_method_sysv_create_region` from df_shm_sysv.c: computes
`ftok(path, token_id)`; on ftok failure (−1) returns an error with the
method state unchanged; otherwise increments `token_id` and proceeds to
`shmget`/`shmat` (whose success the two Booleans model), returning the new
method state and, on full success, the region data carrying the key. -/
def df_shm_method_sysv_create_region (ftok : String → Int → Int)
    (shmget_ok shmat_ok : Bool) (m : shm_sysv_method_data) :
    shm_sysv_method_data × Option shm_sysv_region_data :=
  let key := ftok m.path m.token_id
  if key = -1 then (m, none)
  else
    let m' := { m with token_id := m.token_id + 1 }
    if ¬ shmget_ok then (m', none)
    else if ¬ shmat_ok then (m', none)
    else (m', some { key := key })

end Sysv

/-- Claim C8 (code bug exhibited): `df_shm_method_sysv_init` never
establishes the token counter — the returned method data's `token_id` equals
the indeterminate malloc contents (`garbage_token`), whatever they are, not
the value 1 of the dead local variable; each successful
`df_shm_method_sysv_create_region` does use `ftok(path, token_id)` with the
current counter and then increments it by one. -/
theorem C8_token_counter (pid garbage_token : Int)
    (ftok : String → Int → Int) (m : Sysv.shm_sysv_method_data) :
    ((Sysv.df_shm_method_sysv_init pid garbage_token true).map
      Sysv.shm_sysv_method_data.token_id) = some garbage_token ∧
    (ftok m.path m.token_id ≠ -1 →
      (Sysv.df_shm_method_sysv_create_region ftok true true m).2 =
        some { key := ftok m.path m.token_id } ∧
      (Sysv.df_shm_method_sysv_create_region ftok true true m).1.token_id =
        m.token_id + 1) ∧
    (ftok m.path m.token_id = -1 →
      Sysv.df_shm_method_sysv_create_region ftok true true m = (m, none)) := by
  refine ⟨rfl, ?_, ?_⟩
  · intro hftok
    unfold Sysv.df_shm_method_sysv_create_region
    rw [if_neg hftok]
    exact ⟨rfl, rfl⟩
  · intro hftok
    unfold Sysv.df_shm_method_sysv_create_region
    rw [if_pos hftok]

/-- Witness for C8: garbage 7 in the malloc'ed field survives init (the
claimed initialization to 1 does not happen), and a create with
`ftok = 42` yields key 42 and advances the counter from 7 to 8. -/
theorem C8_token_counter_witness :
    ((Sysv.df_shm_method_sysv_init 5 7 true).map
      Sysv.shm_sysv_method_data.token_id) = some 7 ∧
    (Sysv.df_shm_method_sysv_create_region (fun _ _ => 42) true true
        { default_flag := 0x180, path := "/tmp/df_shm_sysv.5",
          token_id := 7, my_pid := 5 }).2 = some { key := 42 } ∧
    (Sysv.df_shm_method_sysv_create_region (fun _ _ => 42) true true
        { default_flag := 0x180, path := "/tmp/df_shm_sysv.5",
          token_id := 7, my_pid := 5 }).1.token_id = 7 + 1 :=
  ⟨(C8_token_counter 5 7 (fun _ _ => 42)
      { default_flag := 0x180, path := "/tmp/df_shm_sysv.5",
        token_id := 7, my_pid := 5 }).1,
   ((C8_token_counter 5 7 (fun _ _ => 42)
      { default_flag := 0x180, path := "/tmp/df_shm_sysv.5",
        token_id := 7, my_pid := 5 }).2.1 (by decide)).1,
   ((C8_token_counter 5 7 (fun _ _ => 42)
      { default_flag := 0x180, path := "/tmp/df_shm_sysv.5",
        token_id := 7, my_pid := 5 }).2.1 (by decide)).2⟩

/-! ## mmap backend contact descriptor (df_shm_mmap.c)

`df_shm_method_mmap_region_contact` writes `strcpy(contact, file_name)` (the
path bytes followed by the terminating NUL) and then `memcpy`s the region's
`file_length` (a `size_t`, eight bytes in the platform's native
little-endian byte order) right after the NUL, reporting length
`strlen(file_name) + 1 + sizeof(size_t)`.  `df_shm_method_mmap_attach_region`
reads the path as the C string at the start of the buffer and the length as
the `size_t` at offset `strlen(file_name) + 1`.  Bytes are numbers; a path
byte is nonzero. -/

namespace Mmap

/-- Little-endian byte serialisation of a `size_t`-style value (`k` bytes),
as `memcpy` lays it out on the reference platform. -/
def natToBytesLE : Nat → Nat → List Nat
  | 0, _ => []
  | k + 1, s => s % 256 :: natToBytesLE k (s / 256)

/-- Little-endian byte deserialisation. -/
def natFromBytesLE : List Nat → Nat
  | [] => 0
  | b :: bs => b + 256 * natFromBytesLE bs

/-- `df_shm_method_mmap_region_contact` from df_shm_mmap.c: the contact
buffer (path bytes, NUL, eight size bytes) and the reported length. -/
def df_shm_method_mmap_region_contact (file_name : List Nat) (file_length : Nat) :
    List Nat × Nat :=
  (file_name ++ 0 :: natToBytesLE 8 file_length, file_name.length + 1 + 8)

/-- The decoding performed at the top of `df_shm_method_mmap_attach_region`:
the backing file path is the C string at the start of `contact_info`
(bytes up to the first NUL) and the region's `file_length` is the `size_t`
read at offset `strlen(file_name) + 1`. -/
def df_shm_method_mmap_attach_decode (contact_info : List Nat) : List Nat × Nat :=
  let file_name := contact_info.takeWhile (fun b => b ≠ 0)
  (file_name,
   natFromBytesLE ((contact_info.drop (file_name.length + 1)).take 8))

theorem natToBytesLE_length (k s : Nat) : (natToBytesLE k s).length = k := by
  induction k generalizing s with
  | zero => rfl
  | succ k ih =>
    unfold natToBytesLE
    rw [List.length_cons, ih]

theorem natFromBytesLE_natToBytesLE (k s : Nat) :
    natFromBytesLE (natToBytesLE k s) = s % 256 ^ k := by
  induction k generalizing s with
  | zero =>
    unfold natToBytesLE natFromBytesLE
    rw [pow_zero, Nat.mod_one]
  | succ k ih =>
    unfold natToBytesLE natFromBytesLE
    rw [ih (s / 256), pow_succ, mul_comm (256 ^ k) 256, Nat.mod_mul]

theorem takeWhile_ne_zero_append (name rest : List Nat)
    (hname : ∀ b ∈ name, b ≠ 0) :
    (name ++ 0 :: rest).takeWhile (fun b => b ≠ 0) = name := by
  induction name with
  | nil => simp [List.takeWhile]
  | cons b bs ih =>
    have hb : b ≠ 0 := hname b (List.mem_cons_self b bs)
    rw [List.cons_append, List.takeWhile_cons, if_pos (by simp [hb]),
      ih (fun x hx => hname x (List.mem_cons_of_mem b hx))]

end Mmap

/-- Claim C9 (file-backed contact round-trip): the contact buffer is the
path, a NUL byte, then the region size as a native-endian `size_t`; the
reported length is `strlen(path) + 1 + sizeof(size_t)`; and the decode done
by the attach operation recovers exactly the path and the size. -/
theorem C9_mmap_contact_roundtrip (file_name : List Nat) (file_length : Nat)
    (hname : ∀ b ∈ file_name, b ≠ 0) (hlen : file_length < 2 ^ 64) :
    (Mmap.df_shm_method_mmap_region_contact file_name file_length).2 =
      file_name.length + 1 + 8 ∧
    Mmap.df_shm_method_mmap_attach_decode
        (Mmap.df_shm_method_mmap_region_contact file_name file_length).1 =
      (file_name, file_length) := by
  refine ⟨rfl, ?_⟩
  unfold Mmap.df_shm_method_mmap_region_contact Mmap.df_shm_method_mmap_attach_decode
  simp only []
  rw [Mmap.takeWhile_ne_zero_append file_name _ hname]
  have hdrop : (file_name ++ 0 :: Mmap.natToBytesLE 8 file_length).drop
      (file_name.length + 1) = Mmap.natToBytesLE 8 file_length := by
    have : file_name ++ 0 :: Mmap.natToBytesLE 8 file_length =
        (file_name ++ [0]) ++ Mmap.natToBytesLE 8 file_length := by
      simp
    rw [this]
    have hlen1 : (file_name ++ [0]).length = file_name.length + 1 := by simp
    rw [← hlen1, List.drop_left]
  rw [hdrop]
  have htake : (Mmap.natToBytesLE 8 file_length).take 8 =
      Mmap.natToBytesLE 8 file_length := by
    apply List.take_of_length_le
    rw [Mmap.natToBytesLE_length]
  rw [htake, Mmap.natFromBytesLE_natToBytesLE]
  have h64 : (256 : Nat) ^ 8 = 2 ^ 64 := by norm_num
  rw [h64, Nat.mod_eq_of_lt hlen]

/-- Witness for C9 with path "abc" (bytes 97 98 99) and size 4096. -/
theorem C9_mmap_contact_roundtrip_witness :
    (Mmap.df_shm_method_mmap_region_contact [97, 98, 99] 4096).2 =
      ([97, 98, 99] : List Nat).length + 1 + 8 ∧
    Mmap.df_shm_method_mmap_attach_decode
        (Mmap.df_shm_method_mmap_region_contact [97, 98, 99] 4096).1 =
      ([97, 98, 99], 4096) :=
  C9_mmap_contact_roundtrip [97, 98, 99] 4096 (by decide) (by decide)

end DfShm
